import Mathlib

/-!
# Worker Supervision & Rotation Scheduler — verification development

Shallow embedding of the supervisory core of the repository: the dual
dispatch queues and crash/requeue logic of `run_watchdog.py`
(`WatchdogRunner`), the account status ledger of `src/account_monitor.py`
(`AccountMonitor`), the session registry of `src/browser_watchdog.py`
(`BrowserWatchdog`), the progress store of `src/kpi_manager.py`
(`KPIManager`) and the time-window gate of `src/work_hours_scheduler.py`
(`WorkHoursScheduler`).

Pure functions of the source become Lean functions; the mutating methods
become explicit state-passing functions over the structures below, and the
supervisor's event handlers become a step relation on a global runner
state. Machine integers of the source are Python arbitrary-precision
integers, so `Nat`/`Int` model them exactly.
-/

/-! ## Dispatch queues (`run_watchdog.py`, `WatchdogRunner.incomplete_queue` / `normal_queue`) -/

/-- The two deques of `WatchdogRunner`: `incomplete_queue` (head = left end)
and `normal_queue` (head = left end). -/
structure DispatchQueues where
  incomplete : List String
  normal : List String
deriving DecidableEq, Repr

/-- Which queue `_spawn_next_browser` popped from (`queue_type` in the source). -/
inductive QueueType where
  | incomplete
  | normal
deriving DecidableEq, Repr

/-- `incomplete_queue.appendleft(email)` — insert at the front
(`WatchdogRunner._on_crash`, `WatchdogRunner._run_account`). -/
def pushIncomplete (q : DispatchQueues) (e : String) : DispatchQueues :=
  { q with incomplete := e :: q.incomplete }

/-- `normal_queue.append(email)` — insert at the back. -/
def pushNormal (q : DispatchQueues) (e : String) : DispatchQueues :=
  { q with normal := q.normal ++ [e] }

/-- The pop of `WatchdogRunner._spawn_next_browser` (lines 169–181):
`popleft` from `incomplete_queue` if non-empty, else `popleft` from
`normal_queue`, else nothing. -/
def popNext (q : DispatchQueues) : Option (String × QueueType × DispatchQueues) :=
  match q.incomplete with
  | e :: rest => some (e, QueueType.incomplete, { q with incomplete := rest })
  | [] =>
    match q.normal with
    | e :: rest => some (e, QueueType.normal, { q with normal := rest })
    | [] => none

/-! ## Time-window gate (`src/work_hours_scheduler.py`, `WorkHoursScheduler`) -/

/-- The scheduler's configuration fields (`start_hour`, `end_hour`,
`enabled`). `start_time`/`end_time` of the source are the derived
`time(start_hour, 0)` / `time(end_hour, 0)` values; here a time of day is
minutes since midnight, so they are `start_hour * 60` / `end_hour * 60`. -/
structure WorkHoursScheduler where
  start_hour : Nat
  end_hour : Nat
  enabled : Bool
deriving DecidableEq, Repr

/-- `WorkHoursScheduler._is_overnight_shift`. -/
def is_overnight_shift (s : WorkHoursScheduler) : Bool :=
  decide (s.start_hour > s.end_hour)

/-- `WorkHoursScheduler.is_within_work_hours(check_time)`; `now` is the
check time as minutes since midnight. -/
def is_within_work_hours (s : WorkHoursScheduler) (now : Nat) : Bool :=
  if !s.enabled then
    true
  else if is_overnight_shift s then
    decide (now ≥ s.start_hour * 60) || decide (now < s.end_hour * 60)
  else
    decide (s.start_hour * 60 ≤ now) && decide (now < s.end_hour * 60)

/-- `WorkHoursScheduler.get_daily_work_hours`. -/
def get_daily_work_hours (s : WorkHoursScheduler) : Nat :=
  if is_overnight_shift s then
    (24 - s.start_hour) + s.end_hour
  else
    s.end_hour - s.start_hour

/-! ## Progress store (`src/kpi_manager.py`, `KPIManager`) -/

/-- The two dictionaries of `KPIManager`: `account_kpis` and
`account_progress`, as partial maps from email to Python int. -/
structure KPIState where
  account_kpis : String → Option Int
  account_progress : String → Option Int

/-- `KPIManager.get_kpi` — `account_kpis.get(email, 0)`. -/
def get_kpi (st : KPIState) (e : String) : Int :=
  (st.account_kpis e).getD 0

/-- `KPIManager.get_progress` — `account_progress.get(email, 0)`. -/
def get_progress (st : KPIState) (e : String) : Int :=
  (st.account_progress e).getD 0

/-- `KPIManager.get_remaining` — `max(0, kpi - progress)`. -/
def get_remaining (st : KPIState) (e : String) : Int :=
  max 0 (get_kpi st e - get_progress st e)

/-- `KPIManager.has_met_kpi` — `progress >= kpi`. -/
def has_met_kpi (st : KPIState) (e : String) : Bool :=
  decide (get_progress st e ≥ get_kpi st e)

/-- `KPIManager._get_sheet_name` — local part of the email with Excel-invalid
characters replaced by an underscore, truncated to 31 characters. -/
def get_sheet_name (email : String) : String :=
  if email = "" then "Unknown"
  else
    let base := (email.splitOn "@").headD email
    let cleaned := base.map fun c =>
      if c ∈ ['\\', '/', '*', '?', ':', '[', ']'] then '_' else c
    cleaned.take 31

/-- The external completed-record source seen by
`KPIManager.refresh_progress`: the file may be absent
(`os.path.exists` false), unreadable (`pd.read_excel` raises), or a
readable workbook mapping sheet names to row counts (`len(df)`). -/
inductive RecordSource where
  | missing
  | unreadable
  | sheets (tbl : List (String × Nat))

/-- `KPIManager.refresh_progress`: for every email in `account_kpis`, set
its progress from the source; when the source is missing or unreadable,
every tracked account's progress becomes 0 and the call returns normally
(the function is total — no exception escapes). -/
def refresh_progress (st : KPIState) (src : RecordSource) : KPIState :=
  match src with
  | RecordSource.missing =>
      { st with account_progress := fun e =>
          if (st.account_kpis e).isSome then some 0 else st.account_progress e }
  | RecordSource.unreadable =>
      { st with account_progress := fun e =>
          if (st.account_kpis e).isSome then some 0 else st.account_progress e }
  | RecordSource.sheets tbl =>
      { st with account_progress := fun e =>
          if (st.account_kpis e).isSome then
            some (((tbl.lookup (get_sheet_name e)).getD 0 : Nat) : Int)
          else st.account_progress e }

/-! ## Claim C1 — pop priority of the dual queue -/

/-- Claim C1: for every state of the two dispatch queues (hence after every
sequence of pushes), a pop returns the front of `incomplete` whenever it is
non-empty, otherwise the front of `normal`, otherwise nothing; it never
returns an id from `normal` while `incomplete` is non-empty. -/
theorem popNext_incomplete_priority (q : DispatchQueues) :
    (∀ e rest, q.incomplete = e :: rest →
        popNext q = some (e, QueueType.incomplete, { q with incomplete := rest })) ∧
    (∀ e rest, q.incomplete = [] → q.normal = e :: rest →
        popNext q = some (e, QueueType.normal, { q with normal := rest })) ∧
    (q.incomplete = [] → q.normal = [] → popNext q = none) ∧
    (∀ e q', popNext q = some (e, QueueType.normal, q') → q.incomplete = []) := by
  obtain ⟨inc, nor⟩ := q
  refine ⟨?_, ?_, ?_, ?_⟩
  · rintro e rest h
    simp only at h
    subst h
    rfl
  · rintro e rest h1 h2
    simp only at h1 h2
    subst h1; subst h2
    rfl
  · rintro h1 h2
    simp only at h1 h2
    subst h1; subst h2
    rfl
  · rintro e q' h
    cases inc with
    | nil => rfl
    | cons a rest =>
        simp [popNext] at h

/-- Closed witness for C1: the theorem applied to the concrete queue state
with `incomplete = [a]`, `normal = [b]`. -/
theorem popNext_incomplete_priority_witness :
    popNext ⟨["a"], ["b"]⟩ =
      some ("a", QueueType.incomplete, ⟨[], ["b"]⟩) :=
  (popNext_incomplete_priority ⟨["a"], ["b"]⟩).1 "a" [] rfl

/-! ## Claim C5 — the inside-window predicate -/

/-- Claim C5: `is_within_work_hours` returns true whenever `enabled` is
false; when enabled and `start_hour > end_hour` (overnight wraparound) it
returns `now ≥ start ∨ now < end`; otherwise it returns
`start ≤ now < end`. With start=20, end=8 it is true at 23:00 and 03:00
and false at 12:00; with start=8, end=18 it is true at 09:00 and false at
19:00. -/
theorem is_within_work_hours_spec :
    (∀ (s : WorkHoursScheduler) (now : Nat), s.enabled = false →
        is_within_work_hours s now = true) ∧
    (∀ (s : WorkHoursScheduler) (now : Nat), s.enabled = true →
        s.end_hour < s.start_hour →
        (is_within_work_hours s now =
          (decide (now ≥ s.start_hour * 60) || decide (now < s.end_hour * 60)))) ∧
    (∀ (s : WorkHoursScheduler) (now : Nat), s.enabled = true →
        s.start_hour ≤ s.end_hour →
        (is_within_work_hours s now =
          (decide (s.start_hour * 60 ≤ now) && decide (now < s.end_hour * 60)))) ∧
    (is_within_work_hours ⟨20, 8, true⟩ (23 * 60) = true) ∧
    (is_within_work_hours ⟨20, 8, true⟩ (3 * 60) = true) ∧
    (is_within_work_hours ⟨20, 8, true⟩ (12 * 60) = false) ∧
    (is_within_work_hours ⟨8, 18, true⟩ (9 * 60) = true) ∧
    (is_within_work_hours ⟨8, 18, true⟩ (19 * 60) = false) := by
  refine ⟨?_, ?_, ?_, by decide, by decide, by decide, by decide, by decide⟩
  · intro s now h
    simp [is_within_work_hours, h]
  · intro s now he hover
    simp [is_within_work_hours, is_overnight_shift, he, hover]
  · intro s now he hday
    simp [is_within_work_hours, is_overnight_shift, he, Nat.not_lt.mpr hday]

/-- Closed witness for C5: the disabled gate returns true at noon for the
8–18 window, by the first conjunct of the theorem. -/
theorem is_within_work_hours_spec_witness :
    is_within_work_hours ⟨8, 18, false⟩ (12 * 60) = true :=
  is_within_work_hours_spec.1 ⟨8, 18, false⟩ (12 * 60) rfl

/-! ## Claim C6 — remaining / quota-met arithmetic -/

/-- Claim C6: for every store state and account id,
`get_remaining = max(0, kpi − progress)`, and `has_met_kpi` holds iff the
remaining count is 0, equivalently iff progress ≥ kpi — including when
progress overshoots the target. -/
theorem kpi_remaining_spec (st : KPIState) (e : String) :
    get_remaining st e = max 0 (get_kpi st e - get_progress st e) ∧
    (has_met_kpi st e = true ↔ get_remaining st e = 0) ∧
    (has_met_kpi st e = true ↔ get_kpi st e ≤ get_progress st e) := by
  refine ⟨rfl, ?_, ?_⟩
  · simp only [has_met_kpi, get_remaining, ge_iff_le, decide_eq_true_eq]
    omega
  · simp only [has_met_kpi, ge_iff_le, decide_eq_true_eq]

/-! ## Claim C8 — unreadable record source zeroes every tracked progress -/

/-- Claim C8: if the completed-record source is missing or unreadable,
`refresh_progress` sets every tracked account's progress to 0 for that
cycle; being a total function, it returns normally rather than raising. -/
theorem refresh_progress_failure_spec (st : KPIState) (src : RecordSource) (e : String)
    (hsrc : src = RecordSource.missing ∨ src = RecordSource.unreadable)
    (htracked : (st.account_kpis e).isSome = true) :
    get_progress (refresh_progress st src) e = 0 := by
  rcases hsrc with h | h <;> subst h <;>
    simp [refresh_progress, get_progress, htracked]

/-- Closed witness for C8: a store tracking account `a` with quota 5 and
stale progress 4, refreshed against a missing source, reports progress 0. -/
theorem refresh_progress_failure_spec_witness :
    get_progress
      (refresh_progress
        ⟨fun e => if e = "a" then some 5 else none,
         fun e => if e = "a" then some 4 else none⟩
        RecordSource.missing) "a" = 0 :=
  refresh_progress_failure_spec
    ⟨fun e => if e = "a" then some 5 else none,
     fun e => if e = "a" then some 4 else none⟩
    RecordSource.missing "a" (Or.inl rfl) (by decide)

/-! ## Account status ledger (`src/account_monitor.py`, `AccountMonitor`) -/

/-- `AccountStatus` — the five lifecycle states of the source enum. -/
inductive AccountStatus where
  | pending
  | running
  | completed
  | crashed
  | restarting
deriving DecidableEq, Repr

/-- One record of `AccountMonitor.accounts[email]`, restricted to the
fields the supervisory logic reads (`status`, `rotation`, `max_tasks`,
`completed_tasks`, `restart_count`; timestamps and the error text are
write-only for the claims at hand). -/
structure AccountRec where
  status : AccountStatus
  rotation : Nat
  max_tasks : Nat
  completed_tasks : Nat
  restart_count : Nat
deriving DecidableEq, Repr

/-- `AccountMonitor.accounts` — the dict keyed by email. -/
def AccountMap : Type := String → Option AccountRec

/-- Dict assignment `accounts[email] = rec`. -/
def setAcc (m : AccountMap) (e : String) (r : AccountRec) : AccountMap :=
  fun x => if x = e then some r else m x

/-- `AccountMonitor.start_account`: fresh running record, preserving the
previous `restart_count` (`accounts.get(email, {}).get("restart_count", 0)`). -/
def start_account (m : AccountMap) (e : String) (rot mt : Nat) : AccountMap :=
  setAcc m e
    { status := AccountStatus.running, rotation := rot, max_tasks := mt,
      completed_tasks := 0,
      restart_count := ((m e).map (fun r => r.restart_count)).getD 0 }

/-- `AccountMonitor.update_progress` — no-op when the email is unknown. -/
def update_progress (m : AccountMap) (e : String) (c : Nat) : AccountMap :=
  match m e with
  | some r => setAcc m e { r with completed_tasks := c }
  | none => m

/-- `AccountMonitor.mark_completed`. -/
def mark_completed (m : AccountMap) (e : String) (c : Nat) : AccountMap :=
  match m e with
  | some r => setAcc m e { r with status := AccountStatus.completed, completed_tasks := c }
  | none => m

/-- `AccountMonitor.mark_crashed` — sets the status to crashed (the stored
error text is not modelled). -/
def mark_crashed (m : AccountMap) (e : String) : AccountMap :=
  match m e with
  | some r => setAcc m e { r with status := AccountStatus.crashed }
  | none => m

/-- `AccountMonitor.mark_browser_lost` — also sets the status to crashed. -/
def mark_browser_lost (m : AccountMap) (e : String) : AccountMap :=
  match m e with
  | some r => setAcc m e { r with status := AccountStatus.crashed }
  | none => m

/-- `AccountMonitor.mark_restarting` — sets the status to restarting and
increments `restart_count`. -/
def mark_restarting (m : AccountMap) (e : String) : AccountMap :=
  match m e with
  | some r =>
      setAcc m e
        { r with status := AccountStatus.restarting, restart_count := r.restart_count + 1 }
  | none => m

/-- `AccountMonitor.should_restart`: false for an unknown email; otherwise
requires status crashed and `restart_count < max_restarts`. -/
def should_restart (m : AccountMap) (e : String) (maxRestarts : Nat) : Bool :=
  match m e with
  | none => false
  | some r => r.status == AccountStatus.crashed && decide (r.restart_count < maxRestarts)

/-- `AccountMonitor.get_remaining_tasks` — `max(0, max_tasks - completed_tasks)`,
0 for an unknown email (`Nat` subtraction is the `max(0, ·)` form). -/
def get_remaining_tasks (m : AccountMap) (e : String) : Nat :=
  match m e with
  | none => 0
  | some r => r.max_tasks - r.completed_tasks

/-- `AccountMonitor.get_checkpoint` — completed-task count, 0 if unknown. -/
def get_checkpoint (m : AccountMap) (e : String) : Nat :=
  match m e with
  | none => 0
  | some r => r.completed_tasks

/-! ## Supervisor state and event handlers (`run_watchdog.py`, `WatchdogRunner`) -/

/-- The mutable supervisor state of `WatchdogRunner`: the ledger
(`self.monitor.accounts`), the two queues, the set of emails with a live
(not done) task (`running_tasks`), and the rotation counter. -/
structure RunnerState where
  accounts : AccountMap
  incomplete : List String
  normal : List String
  running : List String
  rotation : Nat

/-- `WatchdogRunner._on_crash` (lines 130–154): mark the ledger crashed
(`mark_browser_lost`), drop the account's task from `running_tasks`, and —
only when `remaining > 0` and `should_restart` — `appendleft` the email
onto the incomplete queue. Note: this path never calls `mark_restarting`. -/
def on_crash (maxRestarts : Nat) (st : RunnerState) (e : String) : RunnerState :=
  let m := mark_browser_lost st.accounts e
  let run' := st.running.erase e
  if get_remaining_tasks m e > 0 && should_restart m e maxRestarts then
    { st with accounts := m, running := run', incomplete := e :: st.incomplete }
  else
    { st with accounts := m, running := run' }

/-- `WatchdogRunner._spawn_next_browser` (lines 162–208), work-hours gate
aside: pop the next id (incomplete first); drop it if no password is on
file; if it already has a live task, append it to the *back* of the queue
it came from; otherwise start a task for it. -/
def spawn_next (pw : String → Bool) (st : RunnerState) : RunnerState :=
  match popNext ⟨st.incomplete, st.normal⟩ with
  | none => st
  | some (e, qt, q) =>
    if pw e = false then
      { st with incomplete := q.incomplete, normal := q.normal }
    else if e ∈ st.running then
      match qt with
      | QueueType.incomplete =>
          { st with incomplete := q.incomplete ++ [e], normal := q.normal }
      | QueueType.normal =>
          { st with incomplete := q.incomplete, normal := q.normal ++ [e] }
    else
      { st with incomplete := q.incomplete, normal := q.normal,
                running := e :: st.running }

/-- The exception handlers of `WatchdogRunner._run_account`
(lines 353–364 and 366–375): `mark_crashed`; then, if `should_restart` and
`remaining > 0`, `mark_restarting` and `appendleft` onto incomplete. -/
def run_account_crash (maxRestarts : Nat) (st : RunnerState) (e : String) : RunnerState :=
  let m := mark_crashed st.accounts e
  if should_restart m e maxRestarts then
    if get_remaining_tasks m e > 0 then
      { st with accounts := mark_restarting m e, incomplete := e :: st.incomplete }
    else
      { st with accounts := m }
  else
    { st with accounts := m }

/-- The `finally` requeue of `WatchdogRunner._run_account` (lines 388–408),
with the session's task removed from `running_tasks`: if the KPI is met, no
requeue; else if the session completed its budget, append to `normal`; else
(stopped early) append to `normal` only when the email sits in neither
queue. `kpiMet` is the refreshed `has_met_kpi` verdict, `completed` and
`mt` the session's local counters. -/
def session_end (st : RunnerState) (e : String) (kpiMet : Bool) (completed mt : Nat) :
    RunnerState :=
  let st' := { st with running := st.running.erase e }
  if kpiMet then st'
  else if completed ≥ mt then { st' with normal := st'.normal ++ [e] }
  else if mt - completed > 0 ∧ e ∉ st'.incomplete ∧ e ∉ st'.normal then
    { st' with normal := st'.normal ++ [e] }
  else st'

/-- The rotation check of `WatchdogRunner.run` (lines 504–556): it fires
only when `running_count == 0` and `normal_count == 0`; stops when all
KPIs are met; blocks (refilling nothing, only spawning from incomplete)
while the incomplete queue is non-empty; otherwise refills `normal` with
the unmet-KPI accounts and increments the rotation counter. The returned
`Bool` is the `self._running` flag after the check. -/
def rotation_check (st : RunnerState) (allMet : Bool) (accountList : List String)
    (met : String → Bool) : RunnerState × Bool :=
  if st.running.isEmpty && st.normal.isEmpty then
    if allMet then (st, false)
    else if !st.incomplete.isEmpty then (st, true)
    else
      let needing := accountList.filter (fun e => !(met e))
      if needing.isEmpty then (st, false)
      else ({ st with rotation := st.rotation + 1, normal := st.normal ++ needing }, true)
  else (st, true)

/-- The window-close branch of `WatchdogRunner.run` (lines 438–449): cancel
every running task and append its email to `normal_queue` unless it is
already in one of the two queues; the incomplete queue is never touched. -/
def window_close (st : RunnerState) : RunnerState :=
  let normal' := st.running.foldl
    (fun ns e => if e ∉ ns ∧ e ∉ st.incomplete then ns ++ [e] else ns)
    st.normal
  { st with running := [], normal := normal' }

/-! ## The supervisor's step relation

One constructor per event handler of `WatchdogRunner` that mutates the
ledger or the queues; the per-session inputs (`completed`, `max_tasks`, the
refreshed KPI verdict, the unmet-account list) are parameters of the
step, as they come from the session body and the progress store. -/

/-- A single supervisor event. -/
inductive Step (pw : String → Bool) (maxRestarts : Nat) : RunnerState → RunnerState → Prop where
  | crash_detected (st : RunnerState) (e : String) :
      Step pw maxRestarts st (on_crash maxRestarts st e)
  | spawn (st : RunnerState) :
      Step pw maxRestarts st (spawn_next pw st)
  | session_start (st : RunnerState) (e : String) (rot mt : Nat) :
      Step pw maxRestarts st { st with accounts := start_account st.accounts e rot mt }
  | task_progress (st : RunnerState) (e : String) (c : Nat) :
      Step pw maxRestarts st { st with accounts := update_progress st.accounts e c }
  | batch_complete (st : RunnerState) (e : String) (c : Nat) :
      Step pw maxRestarts st { st with accounts := mark_completed st.accounts e c }
  | session_crash (st : RunnerState) (e : String) :
      Step pw maxRestarts st (run_account_crash maxRestarts st e)
  | session_finish (st : RunnerState) (e : String) (k : Bool) (c mt : Nat) :
      Step pw maxRestarts st (session_end st e k c mt)
  | rotate (st : RunnerState) (allMet : Bool) (accs : List String) (met : String → Bool) :
      Step pw maxRestarts st (rotation_check st allMet accs met).1
  | pause (st : RunnerState) :
      Step pw maxRestarts st (window_close st)

/-- The state after `WatchdogRunner.initialize` on a fresh run
(no `account_status.json` on disk): empty ledger, empty incomplete queue,
the unmet-KPI accounts in `normal`, rotation 1. -/
def initState (normalInit : List String) : RunnerState :=
  { accounts := fun _ => none, incomplete := [], normal := normalInit,
    running := [], rotation := 1 }

/-- States the supervisor can reach from a fresh run. -/
def Reachable (pw : String → Bool) (maxR : Nat) (normalInit : List String)
    (st : RunnerState) : Prop :=
  Relation.ReflTransGen (Step pw maxR) (initState normalInit) st

/-! ## Lookup characterizations of the ledger operations -/

theorem setAcc_lookup (m : AccountMap) (e : String) (r : AccountRec) (x : String) :
    setAcc m e r x = if x = e then some r else m x := rfl

theorem mark_crashed_lookup (m : AccountMap) (e x : String) :
    mark_crashed m e x =
      if x = e then (m e).map (fun r => { r with status := AccountStatus.crashed })
      else m x := by
  unfold mark_crashed
  cases hm : m e with
  | none => by_cases hx : x = e <;> simp [hx, hm]
  | some r => by_cases hx : x = e <;> simp [setAcc, hx, hm]

theorem mark_browser_lost_lookup (m : AccountMap) (e x : String) :
    mark_browser_lost m e x =
      if x = e then (m e).map (fun r => { r with status := AccountStatus.crashed })
      else m x := by
  unfold mark_browser_lost
  cases hm : m e with
  | none => by_cases hx : x = e <;> simp [hx, hm]
  | some r => by_cases hx : x = e <;> simp [setAcc, hx, hm]

theorem mark_restarting_lookup (m : AccountMap) (e x : String) :
    mark_restarting m e x =
      if x = e then
        (m e).map (fun r =>
          { r with status := AccountStatus.restarting,
                   restart_count := r.restart_count + 1 })
      else m x := by
  unfold mark_restarting
  cases hm : m e with
  | none => by_cases hx : x = e <;> simp [hx, hm]
  | some r => by_cases hx : x = e <;> simp [setAcc, hx, hm]

theorem update_progress_lookup (m : AccountMap) (e : String) (c : Nat) (x : String) :
    update_progress m e c x =
      if x = e then (m e).map (fun r => { r with completed_tasks := c })
      else m x := by
  unfold update_progress
  cases hm : m e with
  | none => by_cases hx : x = e <;> simp [hx, hm]
  | some r => by_cases hx : x = e <;> simp [setAcc, hx, hm]

theorem mark_completed_lookup (m : AccountMap) (e : String) (c : Nat) (x : String) :
    mark_completed m e c x =
      if x = e then
        (m e).map (fun r =>
          { r with status := AccountStatus.completed, completed_tasks := c })
      else m x := by
  unfold mark_completed
  cases hm : m e with
  | none => by_cases hx : x = e <;> simp [hx, hm]
  | some r => by_cases hx : x = e <;> simp [setAcc, hx, hm]

theorem should_restart_eq_true_iff (m : AccountMap) (e : String) (maxR : Nat) :
    should_restart m e maxR = true ↔
      ∃ r, m e = some r ∧ r.status = AccountStatus.crashed ∧ r.restart_count < maxR := by
  unfold should_restart
  cases hm : m e with
  | none => simp
  | some r => simp [hm]

/-! ## Fields untouched by each handler -/

theorem spawn_next_accounts (pw : String → Bool) (st : RunnerState) :
    (spawn_next pw st).accounts = st.accounts := by
  unfold spawn_next
  cases hp : popNext ⟨st.incomplete, st.normal⟩ with
  | none => rfl
  | some v =>
      obtain ⟨e, qt, q⟩ := v
      dsimp only
      split
      · rfl
      split
      · cases qt <;> rfl
      · rfl

theorem on_crash_accounts (maxR : Nat) (st : RunnerState) (e : String) :
    (on_crash maxR st e).accounts = mark_browser_lost st.accounts e := by
  unfold on_crash
  dsimp only
  split <;> rfl

theorem session_end_accounts (st : RunnerState) (e : String) (k : Bool) (c mt : Nat) :
    (session_end st e k c mt).accounts = st.accounts := by
  unfold session_end
  dsimp only
  split
  · rfl
  split
  · rfl
  split <;> rfl

theorem session_end_incomplete (st : RunnerState) (e : String) (k : Bool) (c mt : Nat) :
    (session_end st e k c mt).incomplete = st.incomplete := by
  unfold session_end
  dsimp only
  split
  · rfl
  split
  · rfl
  split <;> rfl

theorem rotation_check_accounts (st : RunnerState) (allMet : Bool)
    (accs : List String) (met : String → Bool) :
    (rotation_check st allMet accs met).1.accounts = st.accounts := by
  unfold rotation_check
  dsimp only
  split
  · split
    · rfl
    split
    · rfl
    · split <;> rfl
  · rfl

theorem rotation_check_incomplete (st : RunnerState) (allMet : Bool)
    (accs : List String) (met : String → Bool) :
    (rotation_check st allMet accs met).1.incomplete = st.incomplete := by
  unfold rotation_check
  dsimp only
  split
  · split
    · rfl
    split
    · rfl
    · split <;> rfl
  · rfl

theorem window_close_accounts (st : RunnerState) :
    (window_close st).accounts = st.accounts := rfl

theorem window_close_incomplete (st : RunnerState) :
    (window_close st).incomplete = st.incomplete := rfl

/-! ## Restart-budget invariant (claim C3) -/

theorem get_remaining_tasks_eq (m : AccountMap) (e : String) {r : AccountRec}
    (h : m e = some r) : get_remaining_tasks m e = r.max_tasks - r.completed_tasks := by
  unfold get_remaining_tasks
  rw [h]

/-- A point update whose payload keeps `restart_count` preserves the
restart-count bound. -/
theorem pointUpdate_restart_bound {m m' : AccountMap} {maxR : Nat} (e : String)
    (f : AccountRec → AccountRec)
    (hm : ∀ x, m' x = if x = e then (m e).map f else m x)
    (hf : ∀ r, (f r).restart_count = r.restart_count)
    (inv : ∀ x r, m x = some r → r.restart_count ≤ maxR) :
    ∀ x r, m' x = some r → r.restart_count ≤ maxR := by
  intro x r hx
  rw [hm] at hx
  split at hx
  · obtain ⟨r0, h0, hr⟩ := Option.map_eq_some'.mp hx
    subst hr
    rw [hf]
    exact inv e r0 h0
  · exact inv x r hx

/-- `mark_restarting` keeps the bound provided the incremented record was
strictly below it (which `should_restart` guarantees at every call site). -/
theorem mark_restarting_restart_bound {m : AccountMap} {maxR : Nat} (e : String)
    (hlt : ∀ r, m e = some r → r.restart_count < maxR)
    (inv : ∀ x r, m x = some r → r.restart_count ≤ maxR) :
    ∀ x r, mark_restarting m e x = some r → r.restart_count ≤ maxR := by
  intro x r hx
  rw [mark_restarting_lookup] at hx
  split at hx
  · obtain ⟨r0, h0, hr⟩ := Option.map_eq_some'.mp hx
    subst hr
    exact hlt r0 h0
  · exact inv x r hx

/-- `run_account_crash` either stops at `mark_crashed` or additionally
applies `mark_restarting`, the latter only under a true `should_restart`. -/
theorem run_account_crash_accounts (maxR : Nat) (st : RunnerState) (e : String) :
    (run_account_crash maxR st e).accounts = mark_crashed st.accounts e ∨
    (should_restart (mark_crashed st.accounts e) e maxR = true ∧
      (run_account_crash maxR st e).accounts =
        mark_restarting (mark_crashed st.accounts e) e) := by
  unfold run_account_crash
  dsimp only
  split
  · split
    · right; exact ⟨by assumption, rfl⟩
    · left; rfl
  · left; rfl


theorem mark_crashed_self (m : AccountMap) (e : String) :
    mark_crashed m e e =
      (m e).map (fun r => { r with status := AccountStatus.crashed }) := by
  rw [mark_crashed_lookup]
  simp

theorem mark_browser_lost_self (m : AccountMap) (e : String) :
    mark_browser_lost m e e =
      (m e).map (fun r => { r with status := AccountStatus.crashed }) := by
  rw [mark_browser_lost_lookup]
  simp

/-- Every supervisor event keeps each ledger record's `restart_count`
at or below `maxR`. -/
theorem step_preserves_restart_bound {pw : String → Bool} {maxR : Nat}
    {st st' : RunnerState} (h : Step pw maxR st st')
    (inv : ∀ e r, st.accounts e = some r → r.restart_count ≤ maxR) :
    ∀ e r, st'.accounts e = some r → r.restart_count ≤ maxR := by
  cases h with
  | crash_detected e =>
      rw [on_crash_accounts]
      exact pointUpdate_restart_bound e _ (mark_browser_lost_lookup st.accounts e)
        (fun r => rfl) inv
  | spawn =>
      rw [spawn_next_accounts]
      exact inv
  | session_start e rot mt =>
      intro x r hx
      dsimp only at hx
      unfold start_account at hx
      rw [setAcc_lookup] at hx
      split at hx
      · obtain rfl := Option.some_inj.mp hx
        dsimp only
        cases hm : st.accounts e with
        | none => simp [hm]
        | some r0 => simpa [hm] using inv e r0 hm
      · exact inv x r hx
  | task_progress e c =>
      intro x r hx
      dsimp only at hx
      exact pointUpdate_restart_bound e _ (update_progress_lookup st.accounts e c)
        (fun r => rfl) inv x r hx
  | batch_complete e c =>
      intro x r hx
      dsimp only at hx
      exact pointUpdate_restart_bound e _ (mark_completed_lookup st.accounts e c)
        (fun r => rfl) inv x r hx
  | session_crash e =>
      rcases run_account_crash_accounts maxR st e with hacc | ⟨hsr, hacc⟩
      · rw [hacc]
        exact pointUpdate_restart_bound e _ (mark_crashed_lookup st.accounts e)
          (fun r => rfl) inv
      · rw [hacc]
        refine mark_restarting_restart_bound e ?_ ?_
        · intro r hr
          obtain ⟨r1, h1, _, h3⟩ := (should_restart_eq_true_iff _ _ _).mp hsr
          rw [hr] at h1
          obtain rfl := Option.some_inj.mp h1
          exact h3
        · exact pointUpdate_restart_bound e _ (mark_crashed_lookup st.accounts e)
            (fun r => rfl) inv
  | session_finish e k c mt =>
      rw [session_end_accounts]
      exact inv
  | rotate allMet accs met =>
      rw [rotation_check_accounts]
      exact inv
  | pause =>
      rw [window_close_accounts]
      exact inv

/-- The incomplete queue of `spawn_next` holds no id that was not already
in the incomplete queue (a pop can remove or recycle, never admit). -/
theorem spawn_next_incomplete_subset (pw : String → Bool) (st : RunnerState) :
    ∀ x, x ∈ (spawn_next pw st).incomplete → x ∈ st.incomplete := by
  obtain ⟨acc, inc, nor, run, rot⟩ := st
  intro x hx
  cases inc with
  | nil =>
      cases nor with
      | nil => simp [spawn_next, popNext] at hx
      | cons b brest =>
          simp only [spawn_next, popNext] at hx
          split at hx
          · simp at hx
          · split at hx
            · simp at hx
            · simp at hx
  | cons a rest =>
      simp only [spawn_next, popNext] at hx
      split at hx
      · exact List.mem_cons_of_mem a hx
      · split at hx
        · rcases List.mem_append.mp hx with hmm | hmm
          · exact List.mem_cons_of_mem a hmm
          · simp only [List.mem_singleton] at hmm
            rw [hmm]
            exact List.mem_cons_self a rest
        · exact List.mem_cons_of_mem a hx

/-- Any id newly admitted to the incomplete queue by a supervisor event was
a ledger account with `restart_count < maxR` and remaining session work. -/
theorem step_incomplete_new_mem {pw : String → Bool} {maxR : Nat}
    {st st' : RunnerState} (h : Step pw maxR st st')
    {e : String} (hnot : e ∉ st.incomplete) (hmem : e ∈ st'.incomplete) :
    ∃ r, st.accounts e = some r ∧ r.restart_count < maxR ∧
      0 < r.max_tasks - r.completed_tasks := by
  cases h with
  | crash_detected e0 =>
      unfold on_crash at hmem
      dsimp only at hmem
      split at hmem
      · rename_i hcond
        rcases List.mem_cons.mp hmem with rfl | hin
        · simp only [Bool.and_eq_true, decide_eq_true_eq] at hcond
          obtain ⟨h1, h2⟩ := hcond
          obtain ⟨r', hm', _, hlt⟩ := (should_restart_eq_true_iff _ _ _).mp h2
          rw [mark_browser_lost_self] at hm'
          obtain ⟨r0, h0, hf⟩ := Option.map_eq_some'.mp hm'
          refine ⟨r0, h0, ?_, ?_⟩
          · have hc : r'.restart_count = r0.restart_count := by rw [← hf]
            omega
          · rw [get_remaining_tasks_eq _ _ ((mark_browser_lost_self st.accounts e).symm ▸ hm' :
              mark_browser_lost st.accounts e e = some r')] at h1
            have hmax : r'.max_tasks = r0.max_tasks := by rw [← hf]
            have hcomp : r'.completed_tasks = r0.completed_tasks := by rw [← hf]
            omega
        · exact absurd hin hnot
      · exact absurd hmem hnot
  | spawn =>
      exact absurd (spawn_next_incomplete_subset pw st e hmem) hnot
  | session_start e0 rot mt =>
      exact absurd hmem hnot
  | task_progress e0 c =>
      exact absurd hmem hnot
  | batch_complete e0 c =>
      exact absurd hmem hnot
  | session_crash e0 =>
      unfold run_account_crash at hmem
      dsimp only at hmem
      split at hmem
      · rename_i hsr
        split at hmem
        · rename_i hrem
          rcases List.mem_cons.mp hmem with rfl | hin
          · obtain ⟨r', hm', _, hlt⟩ := (should_restart_eq_true_iff _ _ _).mp hsr
            rw [mark_crashed_self] at hm'
            obtain ⟨r0, h0, hf⟩ := Option.map_eq_some'.mp hm'
            refine ⟨r0, h0, ?_, ?_⟩
            · have hc : r'.restart_count = r0.restart_count := by rw [← hf]
              omega
            · rw [get_remaining_tasks_eq _ _ ((mark_crashed_self st.accounts e).symm ▸ hm' :
                mark_crashed st.accounts e e = some r')] at hrem
              have hmax : r'.max_tasks = r0.max_tasks := by rw [← hf]
              have hcomp : r'.completed_tasks = r0.completed_tasks := by rw [← hf]
              omega
          · exact absurd hin hnot
        · exact absurd hmem hnot
      · exact absurd hmem hnot
  | session_finish e0 k c mt =>
      rw [session_end_incomplete] at hmem
      exact absurd hmem hnot
  | rotate allMet accs met =>
      rw [rotation_check_incomplete] at hmem
      exact absurd hmem hnot
  | pause =>
      rw [window_close_incomplete] at hmem
      exact absurd hmem hnot

/-! ## Claim C3 — the restart budget -/

/-- Claim C3 (amended): for every reachable supervisor state, each ledger
record's restart count is at most `maxRestarts`; a supervisor event never
admits to the incomplete queue an id whose restart count has reached
`maxRestarts`; and every admission to the incomplete queue is of an account
with `restart_count < maxRestarts` and remaining session work. (As
originally stated the claim is false in two respects, exhibited by the
separate counterexample: the watchdog crash callback requeues without
marking Restarting, and an exhausted account can still be requeued to the
*normal* queue by the session-end handler.) -/
theorem restart_budget_spec (pw : String → Bool) (maxR : Nat) (initQ : List String) :
    (∀ st, Reachable pw maxR initQ st →
        ∀ e r, st.accounts e = some r → r.restart_count ≤ maxR) ∧
    (∀ st st' (e : String) (r : AccountRec), Step pw maxR st st' →
        st.accounts e = some r → maxR ≤ r.restart_count →
        e ∉ st.incomplete → e ∉ st'.incomplete) ∧
    (∀ st st' (e : String), Step pw maxR st st' →
        e ∉ st.incomplete → e ∈ st'.incomplete →
        ∃ r, st.accounts e = some r ∧ r.restart_count < maxR ∧
          0 < r.max_tasks - r.completed_tasks) := by
  refine ⟨?_, ?_, ?_⟩
  · intro st h
    unfold Reachable at h
    induction h with
    | refl =>
        intro e r hr
        simp [initState] at hr
    | tail hab hbc ih => exact step_preserves_restart_bound hbc ih
  · intro st st' e r hstep hacc hge hnot hmem
    obtain ⟨r', hacc', hlt, _⟩ := step_incomplete_new_mem hstep hnot hmem
    rw [hacc] at hacc'
    obtain rfl := Option.some_inj.mp hacc'
    omega
  · intro st st' e hstep hnot hmem
    exact step_incomplete_new_mem hstep hnot hmem

/-- A demo supervisor state: account `a` started with a 5-task session
budget, 2 tasks completed, its task live, both queues empty. -/
def crashDemoState : RunnerState :=
  { accounts := update_progress (start_account (fun _ => none) "a" 1 5) "a" 2,
    incomplete := [], normal := [], running := ["a"], rotation := 1 }

/-- A ledger record whose restart budget is exhausted (`restart_count = 3`)
while quota work remains. -/
def exhaustedRec : AccountRec :=
  { status := AccountStatus.crashed, rotation := 1, max_tasks := 5,
    completed_tasks := 2, restart_count := 3 }

/-- A demo supervisor state containing only the exhausted account `a`. -/
def exhaustedState : RunnerState :=
  { accounts := fun x => if x = "a" then some exhaustedRec else none,
    incomplete := [], normal := [], running := ["a"], rotation := 1 }

/-- Counterexample to claim C3 as stated: (i) the watchdog crash callback
`_on_crash` requeues account `a` to the incomplete queue while leaving its
ledger status Crashed — it never marks the account Restarting, and its
restart count stays 0; (ii) the session-end requeue of `_run_account`
pushes an account whose restart budget is exhausted
(`restart_count = 3 = maxRestarts`) and whose session work remains back
onto the *normal* queue, so such an account is not surfaced as terminal. -/
theorem restart_budget_claim_counterexample :
    ((on_crash 3 crashDemoState "a").incomplete = ["a"] ∧
      ((on_crash 3 crashDemoState "a").accounts "a").map (fun r => r.status) =
        some AccountStatus.crashed ∧
      ((on_crash 3 crashDemoState "a").accounts "a").map (fun r => r.restart_count) =
        some 0) ∧
    ((session_end exhaustedState "a" false 2 5).normal = ["a"] ∧
      exhaustedState.accounts "a" = some exhaustedRec ∧
      3 ≤ exhaustedRec.restart_count ∧
      0 < exhaustedRec.max_tasks - exhaustedRec.completed_tasks) := by
  decide

/-- Closed witness for C3 (amended): the third conjunct applied at the
concrete crash step on `crashDemoState`. -/
theorem restart_budget_spec_witness :
    ∃ r, crashDemoState.accounts "a" = some r ∧ r.restart_count < 3 ∧
      0 < r.max_tasks - r.completed_tasks :=
  (restart_budget_spec (fun _ => true) 3 ["a"]).2.2 crashDemoState
    (on_crash 3 crashDemoState "a") "a" (Step.crash_detected crashDemoState "a")
    (by decide) (by decide)

/-! ## Session registry (`src/browser_watchdog.py`, `BrowserWatchdog`) -/

/-- One `BrowserSession`, restricted to the fields the claims read: a fresh
session starts with `completed_tasks = 0` and `is_healthy = True` (the
actor handles and timestamps are opaque here). -/
structure BrowserSession where
  completed_tasks : Nat
  is_healthy : Bool
deriving DecidableEq, Repr

/-- `BrowserWatchdog.sessions` — the dict keyed by email. -/
def SessionMap : Type := String → Option BrowserSession

/-- `BrowserWatchdog.register_browser` (lines 67–71):
`self.sessions[email] = BrowserSession(...)` — an unconditional dict
assignment; an existing entry for the same email is silently replaced. -/
def register_browser (m : SessionMap) (e : String) : SessionMap :=
  fun x => if x = e then some { completed_tasks := 0, is_healthy := true } else m x

/-- `BrowserWatchdog.unregister_browser` — delete when present
(idempotent). -/
def unregister_browser (m : SessionMap) (e : String) : SessionMap :=
  fun x => if x = e then none else m x

/-- `BrowserWatchdog.update_task_count` — update only when registered. -/
def update_task_count (m : SessionMap) (e : String) (c : Nat) : SessionMap :=
  fun x =>
    if x = e then (m x).map (fun s => { s with completed_tasks := c }) else m x

/-- Modelled from the spec: `register(id, actorHandle)` fails if an entry
for `id` already exists (the duplicate-session invariant of §4.2). Stated
only for comparison with the source's `register_browser`; the source has no
such failing register. -/
def register_spec (m : SessionMap) (e : String) : Option SessionMap :=
  if (m e).isSome then none else some (register_browser m e)

/-! ## Claim C2 — duplicate registration -/

/-- Counterexample to claim C2 as stated: with a session for `a` already
registered (and holding 3 completed tasks), `register_browser` accepts the
duplicate registration and silently replaces the session — visibly
resetting its task count to 0 — whereas the spec-modelled register rejects
it. The source's register never fails. -/
theorem register_duplicate_counterexample :
    ((update_task_count (register_browser (fun _ => none) "a") "a" 3) "a" =
        some { completed_tasks := 3, is_healthy := true }) ∧
    ((register_browser (update_task_count (register_browser (fun _ => none) "a") "a" 3) "a") "a" =
        some { completed_tasks := 0, is_healthy := true }) ∧
    ((register_spec (update_task_count (register_browser (fun _ => none) "a") "a" 3) "a").isNone
        = true) := by
  decide

/-- Claim C2 (amended): `register_browser` never rejects — it always
installs a fresh session for the id, replacing any existing one, and leaves
every other id untouched (so the registry, being keyed by id, holds at most
one session per id); the duplicate-session invariant is instead enforced by
the dispatcher, which never starts a task for an id that already has a live
task — `_spawn_next_browser` either leaves `running_tasks` unchanged
(re-queuing the popped id) or adds one id that was not running, keeping the
live set duplicate-free. -/
theorem session_registry_spec :
    (∀ (m : SessionMap) (e : String),
        register_browser m e e = some { completed_tasks := 0, is_healthy := true }) ∧
    (∀ (m : SessionMap) (e x : String), x ≠ e → register_browser m e x = m x) ∧
    (∀ (pw : String → Bool) (st : RunnerState),
        (spawn_next pw st).running = st.running ∨
          ∃ e, e ∉ st.running ∧ (spawn_next pw st).running = e :: st.running) ∧
    (∀ (pw : String → Bool) (st : RunnerState), st.running.Nodup →
        (spawn_next pw st).running.Nodup) := by
  have hrun : ∀ (pw : String → Bool) (st : RunnerState),
      (spawn_next pw st).running = st.running ∨
        ∃ e, e ∉ st.running ∧ (spawn_next pw st).running = e :: st.running := by
    intro pw st
    unfold spawn_next
    cases hp : popNext ⟨st.incomplete, st.normal⟩ with
    | none => exact Or.inl rfl
    | some v =>
        obtain ⟨e, qt, q⟩ := v
        dsimp only
        split
        · exact Or.inl rfl
        split
        · cases qt <;> exact Or.inl rfl
        · rename_i hmem
          exact Or.inr ⟨e, hmem, rfl⟩
  refine ⟨?_, ?_, hrun, ?_⟩
  · intro m e
    simp [register_browser]
  · intro m e x hx
    simp [register_browser, hx]
  · intro pw st hnd
    rcases hrun pw st with h | ⟨e, he, h⟩
    · rw [h]; exact hnd
    · rw [h]; exact List.Nodup.cons he hnd

/-- Closed witness for C2 (amended): a register leaves other ids untouched,
and a spawn from a state whose only queued id is already running keeps the
live set duplicate-free. -/
theorem session_registry_spec_witness :
    register_browser (fun _ => none) "a" "b" = none ∧
    (spawn_next (fun _ => true)
        { accounts := fun _ => none, incomplete := [], normal := ["a"],
          running := ["a", "b"], rotation := 1 }).running.Nodup :=
  ⟨session_registry_spec.2.1 (fun _ => none) "a" "b" (by decide),
   session_registry_spec.2.2.2 (fun _ => true)
     { accounts := fun _ => none, incomplete := [], normal := ["a"],
       running := ["a", "b"], rotation := 1 } (by decide)⟩

/-! ## Claim C4 — rotation is blocked while incomplete accounts remain -/

/-- Claim C4: a new rotation never starts while the incomplete queue is
non-empty — the rotation check leaves the state untouched (no refill of
`normal`, no rotation increment); and while any incomplete account remains,
dispatch only serves the incomplete queue: a spawn never consumes or grows
the normal queue, and the pop is always from `incomplete`. -/
theorem rotation_blocked_spec (st : RunnerState) (allMet : Bool)
    (accs : List String) (met : String → Bool) (pw : String → Bool)
    (h : st.incomplete ≠ []) :
    (rotation_check st allMet accs met).1 = st ∧
    (spawn_next pw st).normal = st.normal ∧
    (∀ e qt q', popNext ⟨st.incomplete, st.normal⟩ = some (e, qt, q') →
        qt = QueueType.incomplete ∧ e ∈ st.incomplete) := by
  have hne : st.incomplete.isEmpty = false := by
    cases hi : st.incomplete with
    | nil => exact absurd hi h
    | cons a t => rfl
  refine ⟨?_, ?_, ?_⟩
  · unfold rotation_check
    dsimp only
    split
    · split
      · rfl
      · simp [hne]
    · rfl
  · cases hinc : st.incomplete with
    | nil => exact absurd hinc h
    | cons a rest =>
        unfold spawn_next
        have hpop : popNext ⟨st.incomplete, st.normal⟩ =
            some (a, QueueType.incomplete, ⟨rest, st.normal⟩) := by
          simp [popNext, hinc]
        rw [hpop]
        dsimp only
        split
        · rfl
        · split
          · rfl
          · rfl
  · intro e qt q' hp
    cases hinc : st.incomplete with
    | nil => exact absurd hinc h
    | cons a rest =>
        have hpop : popNext ⟨st.incomplete, st.normal⟩ =
            some (a, QueueType.incomplete, ⟨rest, st.normal⟩) := by
          simp [popNext, hinc]
        rw [hpop] at hp
        simp only [Option.some_inj, Prod.mk.injEq] at hp
        obtain ⟨rfl, rfl, -⟩ := hp
        exact ⟨rfl, List.mem_cons_self a rest⟩

/-- Closed witness for C4: the rotation check on a state with a pending
incomplete account changes nothing. -/
theorem rotation_blocked_spec_witness :
    (rotation_check
        { accounts := fun _ => none, incomplete := ["a"], normal := [],
          running := [], rotation := 1 } false ["a", "b"] (fun _ => false)).1 =
      { accounts := fun _ => none, incomplete := ["a"], normal := [],
        running := [], rotation := 1 } :=
  (rotation_blocked_spec
    { accounts := fun _ => none, incomplete := ["a"], normal := [],
      running := [], rotation := 1 } false ["a", "b"] (fun _ => false)
    (fun _ => true) (by decide)).1

/-! ## Claim C7 — crash requeue is last-in-first-served -/

/-- Claim C7: the crash handlers insert at the *front* of the incomplete
queue (`appendleft`), so a pop right after a push returns the pushed id —
the most recently crashed account is served first; `_on_crash`'s requeue is
exactly such a front insertion; and a just-requeued account is picked by
the very next spawn (before any normal-queue entry), becoming the running
task. -/
theorem crash_requeue_front_spec :
    (∀ (q : DispatchQueues) (e : String),
        popNext (pushIncomplete q e) = some (e, QueueType.incomplete, q)) ∧
    (∀ (maxR : Nat) (st : RunnerState) (e : String),
        0 < get_remaining_tasks (mark_browser_lost st.accounts e) e →
        should_restart (mark_browser_lost st.accounts e) e maxR = true →
        (on_crash maxR st e).incomplete = e :: st.incomplete) ∧
    (∀ (pw : String → Bool) (st : RunnerState) (e : String),
        pw e = true → e ∉ st.running →
        spawn_next pw { st with incomplete := e :: st.incomplete } =
          { st with running := e :: st.running }) := by
  refine ⟨?_, ?_, ?_⟩
  · intro q e
    rfl
  · intro maxR st e h1 h2
    have hc : (decide (get_remaining_tasks (mark_browser_lost st.accounts e) e > 0)
        && should_restart (mark_browser_lost st.accounts e) e maxR) = true := by
      rw [h2, Bool.and_true]
      exact decide_eq_true h1
    unfold on_crash
    dsimp only
    rw [if_pos hc]
  · intro pw st e hpw hrun
    unfold spawn_next
    dsimp only [popNext]
    rw [if_neg (by simp [hpw]), if_neg hrun]

/-- Closed witness for C7: a push then pop on a concrete queue, and the
spawn following a concrete crash requeue picks the requeued account. -/
theorem crash_requeue_front_spec_witness :
    popNext (pushIncomplete ⟨[], ["b"]⟩ "a") =
        some ("a", QueueType.incomplete, ⟨[], ["b"]⟩) ∧
    spawn_next (fun _ => true)
        { accounts := fun _ => none, incomplete := ["a"], normal := ["b"],
          running := [], rotation := 1 } =
      { accounts := fun _ => none, incomplete := [], normal := ["b"],
        running := ["a"], rotation := 1 } :=
  ⟨crash_requeue_front_spec.1 ⟨[], ["b"]⟩ "a",
   crash_requeue_front_spec.2.2 (fun _ => true)
     { accounts := fun _ => none, incomplete := [], normal := ["b"],
       running := [], rotation := 1 } "a" rfl (by decide)⟩

/-! ## Claim C9 — window close requeues to normal only -/

theorem requeue_fold_mem_mono (inc l : List String) (x : String) :
    ∀ ns, x ∈ ns →
      x ∈ l.foldl (fun ns e => if e ∉ ns ∧ e ∉ inc then ns ++ [e] else ns) ns := by
  induction l with
  | nil => intro ns hx; exact hx
  | cons a t ih =>
      intro ns hx
      simp only [List.foldl_cons]
      apply ih
      split
      · exact List.mem_append_left _ hx
      · exact hx

theorem requeue_fold_mem_of_mem (inc l : List String) (x : String)
    (hninc : x ∉ inc) :
    ∀ ns, x ∈ l →
      x ∈ l.foldl (fun ns e => if e ∉ ns ∧ e ∉ inc then ns ++ [e] else ns) ns := by
  induction l with
  | nil => intro ns hl; cases hl
  | cons a t ih =>
      intro ns hl
      simp only [List.foldl_cons]
      rcases List.mem_cons.mp hl with rfl | hxt
      · apply requeue_fold_mem_mono
        dsimp only
        split
        · exact List.mem_append_right _ (List.mem_singleton_self x)
        · rename_i hcond
          by_cases hns : x ∈ ns
          · exact hns
          · exact absurd ⟨hns, hninc⟩ hcond
      · exact ih _ hxt

theorem requeue_fold_not_inc (inc l : List String) :
    ∀ ns, (∀ x ∈ ns, x ∉ inc) →
      ∀ x, x ∈ l.foldl (fun ns e => if e ∉ ns ∧ e ∉ inc then ns ++ [e] else ns) ns →
        x ∉ inc := by
  induction l with
  | nil => intro ns hns; exact hns
  | cons a t ih =>
      intro ns hns
      simp only [List.foldl_cons]
      apply ih
      intro x hx
      split at hx
      · rename_i hcond
        rcases List.mem_append.mp hx with hmm | hmm
        · exact hns x hmm
        · simp only [List.mem_singleton] at hmm
          subst hmm
          exact hcond.2
      · exact hns x hx

/-- Claim C9: when the time window closes, every running account's task is
cancelled and — provided no running account already sits in the incomplete
queue and the two queues are disjoint, the invariants the callers maintain
— its id ends up in the normal queue; the incomplete queue is never
touched, and afterwards no account is present in both queues. -/
theorem window_close_spec (st : RunnerState)
    (hrun : ∀ e ∈ st.running, e ∉ st.incomplete)
    (hdisj : ∀ e ∈ st.incomplete, e ∉ st.normal) :
    (window_close st).incomplete = st.incomplete ∧
    (window_close st).running = [] ∧
    (∀ e ∈ st.running, e ∈ (window_close st).normal) ∧
    (∀ e ∈ (window_close st).incomplete, e ∉ (window_close st).normal) := by
  refine ⟨rfl, rfl, ?_, ?_⟩
  · intro e he
    exact requeue_fold_mem_of_mem st.incomplete st.running e (hrun e he) st.normal he
  · intro e he hmem
    have hni : ∀ x ∈ st.normal, x ∉ st.incomplete := by
      intro x hx hxi
      exact hdisj x hxi hx
    exact requeue_fold_not_inc st.incomplete st.running st.normal hni e hmem he

/-- Closed witness for C9: closing the window on a state with running
account `a`, incomplete `b` and normal `c` puts `a` into the normal
queue. -/
theorem window_close_spec_witness :
    "a" ∈ (window_close
      { accounts := fun _ => none, incomplete := ["b"], normal := ["c"],
        running := ["a"], rotation := 1 }).normal :=
  (window_close_spec
      { accounts := fun _ => none, incomplete := ["b"], normal := ["c"],
        running := ["a"], rotation := 1 }
      (by decide) (by decide)).2.2.1 "a" (by decide)

/-! ## Claim C10 — daily work-hours count matches the window predicate -/

/-- Claim C10: for an enabled window with both hours in 0..23, the computed
daily work-hours count — `(24 − start) + end` for an overnight shift,
`end − start` otherwise — equals the number of whole hours h in 0..23 whose
instant h:00 satisfies the inside-window predicate. -/
theorem daily_work_hours_counts_window (s : Nat) (hs : s < 24) (e : Nat) (he : e < 24) :
    get_daily_work_hours ⟨s, e, true⟩ =
      ((List.range 24).filter
        (fun h => is_within_work_hours ⟨s, e, true⟩ (h * 60))).length := by
  revert s hs e he
  decide

/-- Closed witness for C10: the overnight 20:00–08:00 window. -/
theorem daily_work_hours_counts_window_witness :
    get_daily_work_hours ⟨20, 8, true⟩ =
      ((List.range 24).filter
        (fun h => is_within_work_hours ⟨20, 8, true⟩ (h * 60))).length :=
  daily_work_hours_counts_window 20 (by decide) 8 (by decide)

/-- Closed witness for C6: a store where account `a` overshoots its quota
(progress 4 of 3) reports remaining 0, via the quota-met equivalence. -/
theorem kpi_remaining_spec_witness :
    get_remaining
      ⟨fun e => if e = "a" then some 3 else none,
       fun e => if e = "a" then some 4 else none⟩ "a" = 0 :=
  ((kpi_remaining_spec
      ⟨fun e => if e = "a" then some 3 else none,
       fun e => if e = "a" then some 4 else none⟩ "a").2.1).mp (by decide)
